import Mathlib

/-!
Verification of the conversation/sentiment timeline simulator of the
voice-bot banking dashboard.  The Lean definitions below are shallow
embeddings of the three components the specification describes:

* the Typed Reveal Engine, from the TypewriterText component
  (src/src/components/CustomerInfoPanel.tsx, second file in the bundle);
* the Conversation Playback Driver, from VoiceChatWindow.tsx;
* the Sentiment/Emotion Tracker, from SentimentAnalysisPanel.tsx.

Milliseconds and JS numbers are modelled as exact rationals, the single
call to Math.random inside getTypingSpeed is modelled as an explicit
parameter u with 0 <= u < 1, and React state plus timer callbacks are
modelled as explicit state records with one function per committed
transition.
-/

/-! ## Basic enumerations shared by the components -/

inductive Speaker
  | customer
  | ai
  deriving DecidableEq, Repr

inductive Sentiment
  | positive
  | neutral
  | negative
  deriving DecidableEq, Repr

inductive CallStatus
  | Connected
  | Speaking
  | Listening
  | Processing
  deriving DecidableEq, Repr

/-! ## Character classes used by TypewriterText

The JS regular expression classes appearing in getTypingSpeed:
`/[0-9]/` is Char.isDigit, `[a-zA-Z0-9]` is Char.isAlphanum, and the
class `\s` is the set of JS whitespace characters (WhiteSpace plus
LineTerminator), written out below. -/

def isJsWhitespace (c : Char) : Bool :=
  c = ' ' || c = '\t' || c = '\n' || c = '\x0b' || c = '\x0c' || c = '\r' ||
  c.toNat = 0xa0 || c.toNat = 0x1680 ||
  (0x2000 ≤ c.toNat && c.toNat ≤ 0x200a) ||
  c.toNat = 0x2028 || c.toNat = 0x2029 || c.toNat = 0x202f ||
  c.toNat = 0x205f || c.toNat = 0x3000 || c.toNat = 0xfeff

/-- Truth value of the JS test `/[^a-zA-Z0-9\s]/.test(char)`. -/
def jsNonAlnumNonWs (c : Char) : Bool :=
  !(c.isAlphanum || isJsWhitespace c)

/-- `fullText.substring(0, index).split(' ').pop() || ''` from
getTypingSpeed: the last segment of the prefix before `index`, split on
the literal space character. -/
def wordBefore (fullText : List Char) (index : Nat) : List Char :=
  ((fullText.take index).splitOn ' ').getLastD []

/-! ## getTypingSpeed (CustomerInfoPanel.tsx lines 97-136)

One call of the function, for the character `c` at position `index` of
`fullText`; `u` stands for the value Math.random() would return in the
default branch, so `0 <= u < 1`. -/

def getTypingSpeed (baseSpeed u : ℚ) (fullText : List Char) (index : Nat)
    (c : Char) : ℚ :=
  if c ∈ ['.', '!', '?'] then baseSpeed * 3
  else if c ∈ [',', ';', ':'] then baseSpeed * 2
  else if c = ' ' then
    (if (wordBefore fullText index).length > 7 then baseSpeed * 2
     else baseSpeed * (13/10))
  else if c.toLower ∈ ['e', 't', 'a', 'o', 'i', 'n', 's', 'h', 'r'] then
    baseSpeed * (7/10)
  else if c.isDigit then baseSpeed * (14/10)
  else if jsNonAlnumNonWs c ∧ c ∉ ['.', '!', '?', ',', ';', ':'] then
    baseSpeed * (13/10)
  else
    max (baseSpeed * (1 + (u - 1/2) * (1/2))) (baseSpeed * (3/10))

/-! ## TypewriterText state machine (CustomerInfoPanel.tsx lines 84-170)

The component state is the triple of useState hooks.  One scheduler
round of the main effect either fires the scheduled timeout (appending
one character, firing onStart at index 0) or, once the index has
reached the length of the text, commits the completion step (firing
onComplete).  `twTraceFrom` iterates rounds and collects the callback
events in order. -/

structure TWState where
  displayedText : List Char
  currentIndex : Nat
  isTyping : Bool
  deriving DecidableEq, Repr

def twInit : TWState := { displayedText := [], currentIndex := 0, isTyping := false }

inductive TWEvent
  | start
  | append (c : Char)
  | complete
  deriving DecidableEq, Repr

/-- One scheduler round of the effect at lines 138-163: when
`currentIndex < text.length` the scheduled timeout fires (onStart at
index 0, then the append and the index increment); when
`currentIndex = text.length` the effect itself fires onComplete. -/
def twStep (text : List Char) (s : TWState) : TWState × List TWEvent :=
  if h : s.currentIndex < text.length then
    let c := text.get ⟨s.currentIndex, h⟩
    ({ displayedText := s.displayedText ++ [c],
       currentIndex := s.currentIndex + 1,
       isTyping := if s.currentIndex = 0 then true else s.isTyping },
     (if s.currentIndex = 0 then [TWEvent.start] else []) ++ [TWEvent.append c])
  else if s.currentIndex = text.length then
    ({ s with isTyping := false }, [TWEvent.complete])
  else (s, [])

def twTraceFrom (text : List Char) (s : TWState) : Nat → TWState × List TWEvent
  | 0 => (s, [])
  | n + 1 =>
    let p := twTraceFrom text s n
    let q := twStep text p.1
    (q.1, p.2 ++ q.2)

def twTrace (text : List Char) : Nat → TWState × List TWEvent :=
  twTraceFrom text twInit

/-- The full event sequence of one reveal run: `text.length` append
rounds followed by the completion round. -/
def twRun (text : List Char) : List TWEvent :=
  (twTrace text (text.length + 1)).2

/-- The delay of the timeout the effect schedules in a given state
(line 154: `currentIndex === 0 ? delay : typingSpeed`), or `none` when
the effect schedules no timer. -/
def twEffectTimer (speed startDelay u : ℚ) (text : List Char) (s : TWState) :
    Option ℚ :=
  if h : s.currentIndex < text.length then
    some (if s.currentIndex = 0 then startDelay
          else getTypingSpeed speed u text s.currentIndex
                 (text.get ⟨s.currentIndex, h⟩))
  else none

/-- The reset effect at lines 166-170, run when `text` changes
identity: the three state hooks are reset. -/
def twTextChange (_s : TWState) : TWState :=
  { displayedText := [], currentIndex := 0, isTyping := false }

/-! ### Closed form of the reveal trace -/

theorem twTraceFrom_succ (text : List Char) (s : TWState) (n : Nat) :
    twTraceFrom text s (n + 1) =
      ((twStep text (twTraceFrom text s n).1).1,
        (twTraceFrom text s n).2 ++ (twStep text (twTraceFrom text s n).1).2) := rfl

theorem twTrace_closed (text : List Char) :
    ∀ k, k ≤ text.length →
      twTrace text k =
        ({ displayedText := text.take k, currentIndex := k,
           isTyping := decide (0 < k) },
         if k = 0 then [] else TWEvent.start :: (text.take k).map TWEvent.append) := by
  intro k
  induction k with
  | zero => intro _; rfl
  | succ n ih =>
    intro hk
    have hn : n < text.length := Nat.lt_of_succ_le hk
    have ihn := ih (Nat.le_of_lt hn)
    rw [twTrace] at ihn ⊢
    rw [twTraceFrom_succ, ihn]
    have hstep : twStep text ⟨text.take n, n, decide (0 < n)⟩ =
        (⟨text.take n ++ [text.get ⟨n, hn⟩], n + 1,
           if n = 0 then true else decide (0 < n)⟩,
         (if n = 0 then [TWEvent.start] else []) ++ [TWEvent.append (text.get ⟨n, hn⟩)]) := by
      simp [twStep, hn]
    rw [hstep]
    have htake : text.take (n + 1) = text.take n ++ [text.get ⟨n, hn⟩] := by
      rw [List.take_succ]
      have : text[n]? = some (text.get ⟨n, hn⟩) := by
        simp [List.getElem?_eq_getElem hn]
      simp [this]
    cases n with
    | zero =>
      simp [htake]
    | succ m =>
      simp only [Nat.succ_ne_zero, if_false, htake, List.map_append]
      simp

theorem twRun_closed (text : List Char) :
    twRun text =
      (if text.length = 0 then [] else TWEvent.start :: text.map TWEvent.append)
        ++ [TWEvent.complete] := by
  have h := twTrace_closed text text.length (Nat.le_refl _)
  rw [twRun, twTrace] at *
  rw [twTraceFrom_succ, h]
  have hstep : twStep text ⟨text.take text.length, text.length,
      decide (0 < text.length)⟩ =
      (⟨text.take text.length, text.length, false⟩, [TWEvent.complete]) := by
    simp [twStep]
  rw [hstep]
  simp [List.take_length]

theorem twTrace_succ_len (text : List Char) :
    twTrace text (text.length + 1) =
      (⟨text, text.length, false⟩,
       (if text.length = 0 then [] else TWEvent.start :: text.map TWEvent.append)
         ++ [TWEvent.complete]) := by
  have h := twTrace_closed text text.length (Nat.le_refl _)
  rw [twTrace] at h ⊢
  rw [twTraceFrom_succ, h]
  have hstep : twStep text ⟨text.take text.length, text.length,
      decide (0 < text.length)⟩ =
      (⟨text.take text.length, text.length, false⟩, [TWEvent.complete]) := by
    simp [twStep]
  rw [hstep]
  simp [List.take_length]

/-- C2: for every text, the sequence of displayed-text values of one
reveal run is the sequence of prefixes of the text, each round
appending exactly the next character, ending exactly at the full text;
the onComplete callback fires exactly once, strictly after every
append, never before. -/
theorem C2_reveal_monotone_prefixes (text : List Char) :
    (∀ k, k ≤ text.length → (twTrace text k).1.displayedText = text.take k) ∧
    (∀ k, ∀ h : k < text.length,
      (twTrace text (k + 1)).1.displayedText =
        (twTrace text k).1.displayedText ++ [text.get ⟨k, h⟩]) ∧
    (twTrace text (text.length + 1)).1.displayedText = text ∧
    (twRun text).count TWEvent.complete = 1 ∧
    twRun text =
      (if text.length = 0 then [] else TWEvent.start :: text.map TWEvent.append)
        ++ [TWEvent.complete] := by
  refine ⟨?_, ?_, ?_, ?_, twRun_closed text⟩
  · intro k hk
    rw [twTrace_closed text k hk]
  · intro k hk
    rw [twTrace_closed text k (Nat.le_of_lt hk),
        twTrace_closed text (k + 1) (Nat.succ_le_of_lt hk)]
    simp only
    rw [List.take_succ]
    simp [List.getElem?_eq_getElem hk]
  · rw [twTrace_succ_len]
  · rw [twRun_closed]
    have hnc : ∀ l : List Char,
        (l.map TWEvent.append).count TWEvent.complete = 0 := by
      intro l
      refine List.count_eq_zero.mpr ?_
      simp
    rcases Nat.eq_zero_or_pos text.length with h0 | hpos
    · simp [h0]
    · have : text.length ≠ 0 := Nat.pos_iff_ne_zero.mp hpos
      simp [this, List.count_append, hnc]

theorem C2_reveal_monotone_prefixes_witness :
    (twTrace ['h', 'i'] 1).1.displayedText = ['h'] :=
  (C2_reveal_monotone_prefixes ['h', 'i']).1 1 (by decide)

/-- C6: if the text changes identity while a reveal is in progress
(after `k` rounds of the old run, before its completion round), the old
run has fired no onComplete, the reset effect puts the component back
in the initial state with an empty displayed prefix, and continuing
from that state with the new text is exactly a fresh reveal run of the
new text, so no further character of the old reveal is ever appended
and the old onComplete never fires. -/
theorem C6_reveal_restart (oldText newText : List Char) (k : Nat)
    (hk : k ≤ oldText.length) :
    TWEvent.complete ∉ (twTrace oldText k).2 ∧
    twTextChange (twTrace oldText k).1 = twInit ∧
    (twTextChange (twTrace oldText k).1).displayedText = [] ∧
    (∀ j, twTraceFrom newText (twTextChange (twTrace oldText k).1) j =
      twTrace newText j) := by
  refine ⟨?_, rfl, rfl, fun j => rfl⟩
  intro hmem
  rw [twTrace_closed oldText k hk] at hmem
  rcases Nat.eq_zero_or_pos k with h0 | hpos
  · simp [h0] at hmem
  · have hne : k ≠ 0 := Nat.pos_iff_ne_zero.mp hpos
    simp only [hne, if_false, List.mem_cons, List.mem_map] at hmem
    rcases hmem with h | ⟨c, _, hc⟩
    · exact TWEvent.noConfusion h
    · exact TWEvent.noConfusion hc

theorem C6_reveal_restart_witness :
    TWEvent.complete ∉ (twTrace ['a', 'b'] 1).2 :=
  (C6_reveal_restart ['a', 'b'] ['x', 'y'] 1 (by decide)).1

/-- C10: invoked with the empty string, the effect schedules no timer
at all (in particular it does not wait for the start delay), the very
first effect round fires onComplete, the whole run consists of that
single onComplete, and neither onStart nor any append ever happens. -/
theorem C10_empty_text_completes_immediately (speed startDelay u : ℚ) :
    twEffectTimer speed startDelay u [] twInit = none ∧
    (twTrace [] 1).2 = [TWEvent.complete] ∧
    twRun [] = [TWEvent.complete] ∧
    TWEvent.start ∉ twRun [] ∧
    (∀ c : Char, TWEvent.append c ∉ twRun []) := by
  refine ⟨?_, rfl, rfl, by decide, fun c => ?_⟩
  · simp [twEffectTimer]
  · intro hmem
    rw [twRun_closed] at hmem
    simp at hmem

/-! ## The per-character delay policy of claim C5 -/

/-- Modelled from the wording of claim C5 (spec section 4.1), with
"space" read as the literal space character exactly as the claim
states it; `U` is the uniform random value in [-1/4, 1/4) of the
default branch. -/
def claimStatedDelay (baseSpeed : ℚ) (text : List Char) (i : Nat) (c : Char)
    (U : ℚ) : ℚ :=
  if c ∈ ['.', '!', '?'] then 3 * baseSpeed
  else if c ∈ [',', ';', ':'] then 2 * baseSpeed
  else if c = ' ' then
    (if (wordBefore text i).length > 7 then 2 * baseSpeed
     else (13/10) * baseSpeed)
  else if c.toLower ∈ ['e', 't', 'a', 'o', 'i', 'n', 's', 'h', 'r'] then
    (7/10) * baseSpeed
  else if c.isDigit then (14/10) * baseSpeed
  else if ¬ c.isAlphanum ∧ c ≠ ' ' then (13/10) * baseSpeed
  else max (baseSpeed * (1 + U)) ((3/10) * baseSpeed)

/-- The delay policy with the one change the code forces on claim C5:
the 1.3 × baseSpeed catch-all applies to non-alphanumeric characters
outside the whole JS whitespace class, and whitespace-class characters
other than the plain space (tab, newline, NBSP, ...) fall through to
the default randomised branch. -/
def amendedDelay (baseSpeed : ℚ) (text : List Char) (i : Nat) (c : Char)
    (U : ℚ) : ℚ :=
  if c ∈ ['.', '!', '?'] then 3 * baseSpeed
  else if c ∈ [',', ';', ':'] then 2 * baseSpeed
  else if c = ' ' then
    (if (wordBefore text i).length > 7 then 2 * baseSpeed
     else (13/10) * baseSpeed)
  else if c.toLower ∈ ['e', 't', 'a', 'o', 'i', 'n', 's', 'h', 'r'] then
    (7/10) * baseSpeed
  else if c.isDigit then (14/10) * baseSpeed
  else if ¬ c.isAlphanum ∧ ¬ (isJsWhitespace c = true) then
    (13/10) * baseSpeed
  else max (baseSpeed * (1 + U)) ((3/10) * baseSpeed)

/-- C5 counterexample: for the tab character (position 1 of "a\t",
base speed 10, Math.random() = 1/2 so U = 0) the code schedules the
default randomised delay 10, while the claimed policy prescribes the
1.3 × baseSpeed = 13 catch-all, because the code excludes the whole
JS whitespace class from that branch, not just the space character;
the state shown is the actual trace state after one append round. -/
theorem C5_delay_policy_counterexample :
    (twTrace ['a', '\t'] 1).1 = ⟨['a'], 1, true⟩ ∧
    twEffectTimer 10 300 (1/2) ['a', '\t'] ⟨['a'], 1, true⟩ = some 10 ∧
    claimStatedDelay 10 ['a', '\t'] 1 '\t' 0 = 13 ∧
    (some (10 : ℚ) ≠ some (13 : ℚ)) := by
  refine ⟨by decide, ?_, ?_, by norm_num⟩
  · unfold twEffectTimer
    rw [dif_pos (by decide), if_neg (by decide)]
    unfold getTypingSpeed
    rw [if_neg (by decide), if_neg (by decide), if_neg (by decide),
      if_neg (by decide), if_neg (by decide), if_neg (by decide)]
    norm_num
  · unfold claimStatedDelay
    rw [if_neg (by decide), if_neg (by decide), if_neg (by decide),
      if_neg (by decide), if_neg (by decide), if_pos (by decide)]
    norm_num

theorem getTypingSpeed_eq_amendedDelay (speed u : ℚ) (text : List Char)
    (i : Nat) (c : Char) :
    getTypingSpeed speed u text i c =
      amendedDelay speed text i c ((u - 1/2) * (1/2)) := by
  unfold getTypingSpeed amendedDelay
  by_cases h1 : c ∈ ['.', '!', '?']
  · rw [if_pos h1, if_pos h1, mul_comm]
  · rw [if_neg h1, if_neg h1]
    by_cases h2 : c ∈ [',', ';', ':']
    · rw [if_pos h2, if_pos h2, mul_comm]
    · rw [if_neg h2, if_neg h2]
      by_cases h3 : c = ' '
      · rw [if_pos h3, if_pos h3]
        split <;> ring
      · rw [if_neg h3, if_neg h3]
        by_cases h4 : c.toLower ∈ ['e', 't', 'a', 'o', 'i', 'n', 's', 'h', 'r']
        · rw [if_pos h4, if_pos h4, mul_comm]
        · rw [if_neg h4, if_neg h4]
          by_cases h5 : c.isDigit = true
          · rw [if_pos h5, if_pos h5, mul_comm]
          · rw [if_neg h5, if_neg h5]
            by_cases h6 : jsNonAlnumNonWs c = true
            · have hnp : c ∉ ['.', '!', '?', ',', ';', ':'] := by
                intro hmem
                simp only [List.mem_cons, List.not_mem_nil, or_false] at hmem h1 h2
                tauto
              have hamended : ¬ c.isAlphanum = true ∧ ¬ isJsWhitespace c = true := by
                simpa [jsNonAlnumNonWs] using h6
              rw [if_pos ⟨h6, hnp⟩, if_pos hamended, mul_comm]
            · have hcode : ¬ (jsNonAlnumNonWs c = true ∧
                  c ∉ ['.', '!', '?', ',', ';', ':']) := fun h => h6 h.1
              have hamended : ¬ (¬ c.isAlphanum = true ∧
                  ¬ isJsWhitespace c = true) := by
                intro h
                exact h6 (by simp [jsNonAlnumNonWs, h.1, h.2])
              rw [if_neg hcode, if_neg hamended, mul_comm speed (3/10 : ℚ)]

/-- C5 (amended): for a reveal of `text` at base speed `speed` with
start delay `startDelay`, the timer the effect schedules in the trace
state reached after `i` rounds is the start delay when `i = 0`, and
for `i > 0` it is the amended per-character policy applied to the
character about to be appended: 3×, 2×, the space/word-length rule,
0.7× for the high-frequency letters, 1.4× for digits, 1.3× for other
non-alphanumeric non-whitespace characters, and otherwise
`speed × (1 + U)` floored at 0.3 × speed with `U` uniform in
[-1/4, 1/4) (realised as `(u - 1/2)/2` for Math.random() value `u`). -/
theorem C5_delay_policy_amended (speed startDelay u : ℚ) (text : List Char)
    (i : Nat) (hi : i < text.length) (hu0 : 0 ≤ u) (hu1 : u < 1) :
    (i = 0 →
      twEffectTimer speed startDelay u text (twTrace text i).1 =
        some startDelay) ∧
    (0 < i → ∃ U, -(1/4) ≤ U ∧ U < 1/4 ∧
      twEffectTimer speed startDelay u text (twTrace text i).1 =
        some (amendedDelay speed text i (text.get ⟨i, hi⟩) U)) := by
  have hstate : (twTrace text i).1 =
      ⟨text.take i, i, decide (0 < i)⟩ := by
    rw [twTrace_closed text i (Nat.le_of_lt hi)]
  constructor
  · intro h0
    subst h0
    rw [hstate]
    simp [twEffectTimer, hi]
  · intro hpos
    refine ⟨(u - 1/2) * (1/2), by linarith, by linarith, ?_⟩
    rw [hstate]
    have hne : i ≠ 0 := Nat.pos_iff_ne_zero.mp hpos
    simp only [twEffectTimer, hi, dif_pos, hne, if_false]
    rw [getTypingSpeed_eq_amendedDelay]

theorem C5_delay_policy_amended_witness :
    ∃ U, -(1/4 : ℚ) ≤ U ∧ U < 1/4 ∧
      twEffectTimer 10 300 0 ['b', 'b'] (twTrace ['b', 'b'] 1).1 =
        some (amendedDelay 10 ['b', 'b'] 1 (['b', 'b'].get ⟨1, by decide⟩) U) :=
  (C5_delay_policy_amended 10 300 0 ['b', 'b'] 1 (by decide) (by norm_num)
    (by norm_num)).2 (by decide)

/-! ## Conversation Playback Driver (VoiceChatWindow.tsx)

`Message` is the chat message record; its optional boolean flags are
`Option Bool` because the TS fields are optional and the code
distinguishes absent from false only through JS truthiness, modelled by
`Option.getD false`.  `FlowEntry` is one row of the hard-coded
conversationFlow script.  Timer callbacks of processMessage
(lines 165-207) become one state-transformer per committed transition,
and the nested setTimeout structure becomes the absolute-time functions
`pendingTime`, `revealStartTime`, `contentVisibleTime` and
`completionTime`. -/

structure Message where
  id : String
  speaker : Speaker
  message : String
  timestamp : ℚ
  sentiment : Option Sentiment
  isNew : Option Bool
  showWaveformFirst : Option Bool
  messageVisible : Option Bool
  isAnimating : Option Bool
  deriving DecidableEq, Repr

structure FlowEntry where
  speaker : Speaker
  message : String
  sentiment : Option Sentiment
  delay : ℚ
  deriving DecidableEq, Repr

instance : Inhabited FlowEntry := ⟨⟨Speaker.ai, "", none, 0⟩⟩

/-- The hard-coded conversationFlow array (lines 24-96). -/
def conversationFlow : List FlowEntry :=
  [⟨Speaker.ai,
    "Hello! Welcome to SecureBank. I\x27m your AI assistant. How can I help you today?",
    none, 1000⟩,
   ⟨Speaker.customer,
    "Hi, I\x27m having trouble with my UPI transaction. It failed but the money was deducted from my account.",
    some Sentiment.negative, 3000⟩,
   ⟨Speaker.ai,
    "I understand your concern about the failed UPI transaction. Let me quickly check your account details and recent transactions to help resolve this issue.",
    none, 4000⟩,
   ⟨Speaker.customer,
    "It happened this morning around 10:30 AM. The transaction was for ₹2,500 to a merchant called PayTM_Grocery.",
    some Sentiment.neutral, 3500⟩,
   ⟨Speaker.ai,
    "I can see the transaction in your account history. Let me check with our payment gateway partner for the status of transaction ID UPI2024011514301234.",
    none, 5000⟩,
   ⟨Speaker.customer,
    "This is really frustrating. I need that money back urgently. I have other payments to make today.",
    some Sentiment.negative, 3000⟩,
   ⟨Speaker.ai,
    "I completely understand your frustration. Based on my investigation, the transaction was processed but failed at the merchant end. I\x27m initiating an immediate refund which should reflect in your account within 2-4 hours.",
    none, 6000⟩,
   ⟨Speaker.customer,
    "How can I be sure this will be resolved? I\x27ve had issues before and it took weeks to get my money back.",
    some Sentiment.negative, 4000⟩,
   ⟨Speaker.ai,
    "I\x27ve created a high-priority ticket TKT-2024-0016 for your case. You\x27ll receive SMS and email confirmations. I\x27m also escalating this to our specialized refund team to ensure faster processing.",
    none, 5500⟩,
   ⟨Speaker.customer,
    "Okay, that sounds better. Will I get any confirmation or reference number?",
    some Sentiment.neutral, 3000⟩,
   ⟨Speaker.ai,
    "Yes, your reference number is REF-UPI-2024-001234. I\x27ve also sent you an SMS with all the details. Is there anything else I can help you with today?",
    none, 4000⟩,
   ⟨Speaker.customer,
    "Thank you for your help. I appreciate the quick response and the escalation.",
    some Sentiment.positive, 2500⟩,
   ⟨Speaker.ai,
    "You\x27re very welcome! I\x27m glad I could assist you today. Your refund should be processed soon, and you can always call us back if you need any updates.",
    none, 4000⟩]

/-- `const waveformDuration = currentMsg.speaker === 'ai' ? 1500 : 1200`
(line 180). -/
def waveformDuration (sp : Speaker) : ℚ :=
  if sp = Speaker.ai then 1500 else 1200

/-- `const baseSpeed = currentMsg.speaker === 'ai' ? 40 : 60`
(line 195). -/
def perCharSpeed (sp : Speaker) : ℚ :=
  if sp = Speaker.ai then 40 else 60

/-- `avgTypingDuration + 300` with
`avgTypingDuration = message.length * baseSpeed * 1.2` (lines 196-197). -/
def typingDuration (e : FlowEntry) : ℚ :=
  (e.message.length : ℚ) * perCharSpeed e.speaker * (12/10) + 300

/-- Total time a turn occupies after its pending-reveal transition:
waveform hold, 600 ms settle, estimated typing time and the 500 ms
buffer (the three nested setTimeout delays of processMessage). -/
def phaseDur (e : FlowEntry) : ℚ :=
  waveformDuration e.speaker + 600 + typingDuration e + 500

/-- The absolute time at which the useEffect for turn `k` arms its
outer setTimeout: driver start for turn 0, and the completion commit of
turn `k - 1` afterwards (the effect re-runs when currentMessageIndex
changes, line 214). -/
def armTime (flow : List FlowEntry) : Nat → ℚ
  | 0 => 0
  | k + 1 => armTime flow k + (flow.getD k default).delay + phaseDur (flow.getD k default)

/-- The time processMessage runs for turn `k` (pending-reveal
transition): the arming time plus the inter-turn delay (line 209). -/
def pendingTime (flow : List FlowEntry) (k : Nat) : ℚ :=
  armTime flow k + (flow.getD k default).delay

/-- The time of the Speaking transition of turn `k` (line 182). -/
def revealStartTime (flow : List FlowEntry) (k : Nat) : ℚ :=
  pendingTime flow k + waveformDuration (flow.getD k default).speaker

/-- The time the message content of turn `k` is shown (line 191). -/
def contentVisibleTime (flow : List FlowEntry) (k : Nat) : ℚ :=
  revealStartTime flow k + 600

/-- The time the completion transition of turn `k` commits
(line 200). -/
def completionTime (flow : List FlowEntry) (k : Nat) : ℚ :=
  contentVisibleTime flow k + typingDuration (flow.getD k default) + 500

/-- Turn `k` is in flight at time `t`: between its pending-reveal
transition and its completion commit. -/
def inFlight (flow : List FlowEntry) (k : Nat) (t : ℚ) : Prop :=
  pendingTime flow k ≤ t ∧ t < completionTime flow k

/-! ### Driver state and transitions -/

structure DriverState where
  callStatus : CallStatus
  currentSpeaker : Option Speaker
  messages : List Message
  currentMessageIndex : Nat
  isTyping : Bool
  inputMessage : List Char
  deriving DecidableEq, Repr

def driverInit : DriverState :=
  { callStatus := CallStatus.Connected, currentSpeaker := none,
    messages := [], currentMessageIndex := 0, isTyping := false,
    inputMessage := [] }

/-- The id `message-(Date.now())` of the scripted message of turn `k`
(line 109); each turn creates its message at a distinct instant, so the
turn index stands in for the timestamp. -/
def turnMessageId (k : Nat) : String :=
  "message-" ++ toString k

/-- addWaveformMessage (lines 108-120): append an empty waveform-first
message. -/
def addWaveformMessage (sp : Speaker) (id : String) (now : ℚ)
    (s : DriverState) : DriverState :=
  { s with messages := s.messages ++
      [{ id := id, speaker := sp, message := "", timestamp := now,
         sentiment := none, isNew := some true, showWaveformFirst := some true,
         messageVisible := some false, isAnimating := none }] }

/-- updateMessage (lines 122-129): attach the real text and sentiment
to the message with the given id. -/
def updateMessage (id : String) (text : String) (sent : Option Sentiment)
    (s : DriverState) : DriverState :=
  { s with messages := s.messages.map fun m =>
      if m.id = id then
        { m with message := text, sentiment := sent, isNew := some false,
                 showWaveformFirst := some false }
      else m }

/-- showMessageContent (lines 131-138). -/
def showMessageContent (id : String) (s : DriverState) : DriverState :=
  { s with messages := s.messages.map fun m =>
      if m.id = id then
        { m with messageVisible := some true, isAnimating := some false }
      else m }

/-- The synchronous part of processMessage (lines 165-177): status and
speaker per the turn speaker, waveform message appended, isTyping
set. -/
def phasePending (e : FlowEntry) (id : String) (now : ℚ)
    (s : DriverState) : DriverState :=
  let s1 :=
    if e.speaker = Speaker.customer then
      { s with callStatus := CallStatus.Listening,
               currentSpeaker := some Speaker.customer }
    else
      { s with callStatus := CallStatus.Processing, currentSpeaker := none }
  let s2 := addWaveformMessage e.speaker id now s1
  { s2 with isTyping := true }

/-- The waveform-expiry callback (lines 182-188). -/
def phaseSpeaking (e : FlowEntry) (id : String) (s : DriverState) :
    DriverState :=
  updateMessage id e.message e.sentiment
    { s with callStatus := CallStatus.Speaking,
             currentSpeaker := some e.speaker, isTyping := false }

/-- The 600 ms settle callback (lines 191-192). -/
def phaseShowContent (id : String) (s : DriverState) : DriverState :=
  showMessageContent id s

/-- The completion callback (lines 200-204). -/
def phaseComplete (s : DriverState) : DriverState :=
  { s with callStatus := CallStatus.Connected, currentSpeaker := none,
           currentMessageIndex := s.currentMessageIndex + 1 }

/-- All four committed transitions of one scripted turn, in program
order. -/
def runTurn (e : FlowEntry) (id : String) (now : ℚ) (s : DriverState) :
    DriverState :=
  phaseComplete (phaseShowContent id (phaseSpeaking e id (phasePending e id now s)))

/-- One driver round: the conversation-simulation effect (lines
159-214) does nothing once the index has reached the end of the script
(line 160), and otherwise plays the current turn to completion. -/
def driverStep (flow : List FlowEntry) (s : DriverState) : DriverState :=
  if s.currentMessageIndex < flow.length then
    runTurn (flow.getD s.currentMessageIndex default)
      (turnMessageId s.currentMessageIndex)
      (pendingTime flow s.currentMessageIndex) s
  else s

/-- Driver state after `n` completed rounds from mount. -/
def driverStateN (flow : List FlowEntry) : Nat → DriverState
  | 0 => driverInit
  | n + 1 => driverStep flow (driverStateN flow n)

/-! ### Driver timing and trajectory lemmas -/

theorem typingDuration_nonneg (e : FlowEntry) : 0 ≤ typingDuration e := by
  have hsp : 0 ≤ perCharSpeed e.speaker := by
    unfold perCharSpeed
    split <;> norm_num
  have hlen : 0 ≤ ((e.message.length : ℚ)) := by positivity
  have := mul_nonneg (mul_nonneg hlen hsp) (by norm_num : (0:ℚ) ≤ 12/10)
  unfold typingDuration
  linarith

theorem phaseDur_pos (e : FlowEntry) : 0 < phaseDur e := by
  have h1 := typingDuration_nonneg e
  have h2 : 0 < waveformDuration e.speaker := by
    unfold waveformDuration
    split <;> norm_num
  unfold phaseDur
  linarith

theorem delay_nonneg (flow : List FlowEntry)
    (hd : ∀ e ∈ flow, 0 ≤ e.delay) (k : Nat) :
    0 ≤ (flow.getD k default).delay := by
  by_cases h : k < flow.length
  · refine hd _ ?_
    rw [List.getD_eq_getElem?_getD, List.getElem?_eq_getElem h]
    exact List.getElem_mem h
  · rw [List.getD_eq_getElem?_getD, List.getElem?_eq_none (Nat.le_of_not_lt h)]
    norm_num [default]

theorem completionTime_eq_armTime_succ (flow : List FlowEntry) (k : Nat) :
    completionTime flow k = armTime flow (k + 1) := by
  simp only [completionTime, contentVisibleTime, revealStartTime, pendingTime,
    armTime, phaseDur]
  ring

theorem pendingTime_le_completionTime (flow : List FlowEntry) (k : Nat) :
    pendingTime flow k ≤ completionTime flow k := by
  have h1 := typingDuration_nonneg (flow.getD k default)
  have h2 : 0 < waveformDuration (flow.getD k default).speaker := by
    unfold waveformDuration
    split <;> norm_num
  simp only [completionTime, contentVisibleTime, revealStartTime]
  linarith

theorem completionTime_le_pendingTime_succ (flow : List FlowEntry)
    (hd : ∀ e ∈ flow, 0 ≤ e.delay) (k : Nat) :
    completionTime flow k ≤ pendingTime flow (k + 1) := by
  have h := delay_nonneg flow hd (k + 1)
  rw [completionTime_eq_armTime_succ, pendingTime]
  linarith

theorem completionTime_le_pendingTime_of_lt (flow : List FlowEntry)
    (hd : ∀ e ∈ flow, 0 ≤ e.delay) :
    ∀ j k, j < k → completionTime flow j ≤ pendingTime flow k := by
  intro j k
  induction k with
  | zero => intro h; exact absurd h (Nat.not_lt_zero j)
  | succ n ih =>
    intro hjk
    rcases Nat.lt_succ_iff_lt_or_eq.mp hjk with h | h
    · calc completionTime flow j ≤ pendingTime flow n := ih h
        _ ≤ completionTime flow n := pendingTime_le_completionTime flow n
        _ ≤ pendingTime flow (n + 1) :=
          completionTime_le_pendingTime_succ flow hd n
    · subst h
      exact completionTime_le_pendingTime_succ flow hd j

theorem phasePending_currentMessageIndex (e : FlowEntry) (id : String)
    (now : ℚ) (s : DriverState) :
    (phasePending e id now s).currentMessageIndex = s.currentMessageIndex := by
  unfold phasePending addWaveformMessage
  split <;> rfl

theorem runTurn_currentMessageIndex (e : FlowEntry) (id : String) (now : ℚ)
    (s : DriverState) :
    (runTurn e id now s).currentMessageIndex = s.currentMessageIndex + 1 := by
  unfold runTurn phaseComplete phaseShowContent showMessageContent
    phaseSpeaking updateMessage
  simp [phasePending_currentMessageIndex]

theorem driverStateN_index (flow : List FlowEntry) :
    ∀ n, (driverStateN flow n).currentMessageIndex = min n flow.length := by
  intro n
  induction n with
  | zero => simp [driverStateN, driverInit]
  | succ n ih =>
    show (driverStep flow (driverStateN flow n)).currentMessageIndex = _
    by_cases h : (driverStateN flow n).currentMessageIndex < flow.length
    · rw [driverStep, if_pos h, runTurn_currentMessageIndex, ih]
      rw [ih] at h
      omega
    · rw [driverStep, if_neg h, ih]
      rw [ih] at h
      omega

theorem driverStateN_boundary (flow : List FlowEntry) :
    ∀ n, (driverStateN flow n).callStatus = CallStatus.Connected ∧
      (driverStateN flow n).currentSpeaker = none := by
  intro n
  induction n with
  | zero => exact ⟨rfl, rfl⟩
  | succ n ih =>
    show (driverStep flow (driverStateN flow n)).callStatus = _ ∧
      (driverStep flow (driverStateN flow n)).currentSpeaker = _
    by_cases h : (driverStateN flow n).currentMessageIndex < flow.length
    · rw [driverStep, if_pos h]
      exact ⟨rfl, rfl⟩
    · rw [driverStep, if_neg h]
      exact ih

theorem driverStateN_stable (flow : List FlowEntry) :
    ∀ n, flow.length ≤ n → driverStateN flow n = driverStateN flow flow.length := by
  intro n
  induction n with
  | zero =>
    intro h
    rw [Nat.le_zero.mp h]
  | succ n ih =>
    intro h
    rcases Nat.lt_or_ge flow.length (n + 1) with hlt | hge
    · have hn : flow.length ≤ n := Nat.lt_succ_iff.mp hlt
      show driverStep flow (driverStateN flow n) = _
      rw [ih hn, driverStep, if_neg]
      rw [driverStateN_index]
      omega
    · have : flow.length = n + 1 := Nat.le_antisymm h hge
      rw [this]

/-- C1: for every pair of consecutive scripted turns, the pending-reveal
transition of turn k+1 happens no earlier than the completion commit of
turn k (whose committed state has call status Connected and turn index
k+1), and the in-flight windows of distinct turns never overlap: at most
one turn is in flight at any time. -/
theorem C1_turn_serialization (flow : List FlowEntry)
    (hd : ∀ e ∈ flow, 0 ≤ e.delay) :
    (∀ k, completionTime flow k ≤ pendingTime flow (k + 1)) ∧
    (∀ j k t, inFlight flow j t → inFlight flow k t → j = k) ∧
    (∀ k, k < flow.length →
      (driverStateN flow (k + 1)).currentMessageIndex = k + 1 ∧
      (driverStateN flow (k + 1)).callStatus = CallStatus.Connected) := by
  refine ⟨completionTime_le_pendingTime_succ flow hd, ?_, ?_⟩
  · intro j k t hj hk
    rcases Nat.lt_trichotomy j k with h | h | h
    · exfalso
      have h1 : completionTime flow j ≤ pendingTime flow k :=
        completionTime_le_pendingTime_of_lt flow hd j k h
      have := hj.2
      have := hk.1
      linarith
    · exact h
    · exfalso
      have h1 : completionTime flow k ≤ pendingTime flow j :=
        completionTime_le_pendingTime_of_lt flow hd k j h
      have := hk.2
      have := hj.1
      linarith
  · intro k hk
    constructor
    · rw [driverStateN_index]
      omega
    · exact (driverStateN_boundary flow (k + 1)).1

theorem C1_turn_serialization_witness :
    completionTime conversationFlow 0 ≤ pendingTime conversationFlow 1 :=
  (C1_turn_serialization conversationFlow (by decide)).1 0

theorem phasePending_messages (e : FlowEntry) (id : String) (now : ℚ)
    (s : DriverState) :
    (phasePending e id now s).messages = s.messages ++
      [{ id := id, speaker := e.speaker, message := "", timestamp := now,
         sentiment := none, isNew := some true, showWaveformFirst := some true,
         messageVisible := some false, isAnimating := none }] := by
  unfold phasePending addWaveformMessage
  split <;> rfl

/-- C7: for every scripted turn k, the pending-reveal transition sets
call status Listening for a customer turn and Processing otherwise; the
Speaking transition comes exactly the waveform duration (1500 ms ai,
1200 ms customer) after it; content becomes visible exactly 600 ms
later; the completion commit comes exactly
textLength × perCharSpeed × 1.2 + 300 + 500 ms after that (40 ms/char
ai, 60 ms/char customer) and resets call status to Connected, clears
the speaker and advances the turn index to k + 1; the last message at
the content-visible transition carries the scripted text fully visible
and not animating; and once the index reaches the script length the
driver state never changes again. -/
theorem C7_turn_phase_schedule (flow : List FlowEntry) (k : Nat)
    (hk : k < flow.length) :
    (phasePending (flow.getD k default) (turnMessageId k) (pendingTime flow k)
        (driverStateN flow k)).callStatus =
      (if (flow.getD k default).speaker = Speaker.customer then
        CallStatus.Listening else CallStatus.Processing) ∧
    revealStartTime flow k = pendingTime flow k +
      (if (flow.getD k default).speaker = Speaker.ai then 1500 else 1200) ∧
    contentVisibleTime flow k = revealStartTime flow k + 600 ∧
    completionTime flow k = contentVisibleTime flow k +
      (((flow.getD k default).message.length : ℚ) *
        (if (flow.getD k default).speaker = Speaker.ai then 40 else 60) *
        (12/10) + 300 + 500) ∧
    ((phaseShowContent (turnMessageId k)
        (phaseSpeaking (flow.getD k default) (turnMessageId k)
          (phasePending (flow.getD k default) (turnMessageId k)
            (pendingTime flow k) (driverStateN flow k)))).messages.getLast?).map
        (fun m => (m.message, m.messageVisible, m.isAnimating)) =
      some ((flow.getD k default).message, some true, some false) ∧
    driverStateN flow (k + 1) =
      phaseComplete (phaseShowContent (turnMessageId k)
        (phaseSpeaking (flow.getD k default) (turnMessageId k)
          (phasePending (flow.getD k default) (turnMessageId k)
            (pendingTime flow k) (driverStateN flow k)))) ∧
    (driverStateN flow (k + 1)).callStatus = CallStatus.Connected ∧
    (driverStateN flow (k + 1)).currentSpeaker = none ∧
    (driverStateN flow (k + 1)).currentMessageIndex = k + 1 ∧
    (∀ n, flow.length ≤ n → driverStateN flow n = driverStateN flow flow.length) := by
  have hidx : (driverStateN flow k).currentMessageIndex = k := by
    rw [driverStateN_index]
    omega
  refine ⟨?_, rfl, rfl, ?_, ?_, ?_,
    (driverStateN_boundary flow (k + 1)).1,
    (driverStateN_boundary flow (k + 1)).2, ?_,
    driverStateN_stable flow⟩
  · by_cases hsp : (flow.getD k default).speaker = Speaker.customer
    · rw [List.getD_eq_getElem?_getD] at hsp
      simp [phasePending, addWaveformMessage, hsp]
    · rw [List.getD_eq_getElem?_getD] at hsp
      simp [phasePending, addWaveformMessage, hsp]
  · simp only [completionTime, typingDuration, perCharSpeed]
    ring
  · rw [show (phaseShowContent (turnMessageId k)
        (phaseSpeaking (flow.getD k default) (turnMessageId k)
          (phasePending (flow.getD k default) (turnMessageId k)
            (pendingTime flow k) (driverStateN flow k)))).messages =
        ((phasePending (flow.getD k default) (turnMessageId k)
            (pendingTime flow k) (driverStateN flow k)).messages.map
          (fun m => if m.id = turnMessageId k then
            { m with message := (flow.getD k default).message,
                     sentiment := (flow.getD k default).sentiment,
                     isNew := some false,
                     showWaveformFirst := some false } else m)).map
          (fun m => if m.id = turnMessageId k then
            { m with messageVisible := some true,
                     isAnimating := some false } else m) from rfl]
    rw [phasePending_messages, List.map_append, List.map_append]
    simp [List.getLast?_concat]
  · show driverStep flow (driverStateN flow k) = _
    unfold driverStep
    rw [hidx, if_pos hk]
    rfl
  · rw [driverStateN_index]
    omega

theorem C7_turn_phase_schedule_witness :
    (phasePending (conversationFlow.getD 0 default) (turnMessageId 0)
        (pendingTime conversationFlow 0)
        (driverStateN conversationFlow 0)).callStatus =
      (if (conversationFlow.getD 0 default).speaker = Speaker.customer then
        CallStatus.Listening else CallStatus.Processing) :=
  (C7_turn_phase_schedule conversationFlow 0 (by decide)).1

/-! ## Manual message sending (VoiceChatWindow.tsx lines 219-242 and the
input area lines 386-404)

handleSendMessage itself only checks the trimmed input; the rejection
while call status is Processing is enforced by the disabled attribute
of the input and of the send button (lines 394 and 398), so a submit
through the UI reaches the handler only when the button is enabled. -/

/-- JS String.prototype.trim on the input: strip leading and trailing
characters of the \s class. -/
def jsTrim (s : List Char) : List Char :=
  ((s.dropWhile isJsWhitespace).reverse.dropWhile isJsWhitespace).reverse

/-- The id `manual-(Date.now())` of a manually sent message (line 222);
the integer part of the model timestamp stands in for Date.now(). -/
def manualMessageId (now : ℚ) : String :=
  "manual-" ++ toString now.num

/-- handleSendMessage (lines 219-234): `if (inputMessage.trim())` is
the nonemptiness of the trimmed input. -/
def handleSendMessage (now : ℚ) (s : DriverState) : DriverState :=
  if jsTrim s.inputMessage ≠ [] then
    { s with
      messages := s.messages ++
        [{ id := manualMessageId now, speaker := Speaker.customer,
           message := String.mk (jsTrim s.inputMessage), timestamp := now,
           sentiment := some Sentiment.neutral, isNew := none,
           showWaveformFirst := none, messageVisible := some true,
           isAnimating := some false }],
      inputMessage := [] }
  else s

/-- `disabled={!inputMessage.trim() || callStatus === 'Processing'}`
(line 398). -/
def sendDisabled (s : DriverState) : Bool :=
  decide (jsTrim s.inputMessage = []) ||
    decide (s.callStatus = CallStatus.Processing)

/-- Submitting through the UI: the click reaches handleSendMessage only
when the send affordance is enabled. -/
def submitUserMessage (now : ℚ) (s : DriverState) : DriverState :=
  if sendDisabled s then s else handleSendMessage now s

/-- `message.messageVisible && !message.isAnimating` (line 342): the
bubble renders the completed text directly, with no typewriter pass. -/
def rendersFullText (m : Message) : Bool :=
  m.messageVisible.getD false && !(m.isAnimating.getD false)

/-- `message.showWaveformFirst || message.isAnimating`
(lines 302-306). -/
def isWaveformActive (m : Message) : Bool :=
  m.showWaveformFirst.getD false || m.isAnimating.getD false

theorem jsTrim_eq_nil_iff (l : List Char) :
    jsTrim l = [] ↔ ∀ c ∈ l, isJsWhitespace c = true := by
  constructor
  · intro h c hc
    have h1 : (l.dropWhile isJsWhitespace).reverse.dropWhile isJsWhitespace
        = [] := by
      have := congrArg List.reverse h
      simpa [jsTrim] using this
    have h2 : ∀ x ∈ (l.dropWhile isJsWhitespace).reverse,
        isJsWhitespace x = true := by
      intro x hx
      exact List.dropWhile_eq_nil_iff.mp h1 x hx
    have h3 : ∀ x ∈ l.dropWhile isJsWhitespace, isJsWhitespace x = true := by
      intro x hx
      exact h2 x (List.mem_reverse.mpr hx)
    have hsplit : l.takeWhile isJsWhitespace ++ l.dropWhile isJsWhitespace
        = l := List.takeWhile_append_dropWhile isJsWhitespace l
    rw [← hsplit] at hc
    rcases List.mem_append.mp hc with h4 | h4
    · exact List.mem_takeWhile_imp h4
    · exact h3 c h4
  · intro h
    have h1 : l.dropWhile isJsWhitespace = [] :=
      List.dropWhile_eq_nil_iff.mpr h
    simp [jsTrim, h1]

/-- C3: submitting the typed input is a no-op exactly when the input is
empty or whitespace-only, or the call status is Processing; in every
other state exactly one new message is appended and the previously
stored messages are preserved in place. -/
theorem C3_submit_noop_iff (now : ℚ) (s : DriverState) :
    (submitUserMessage now s = s ↔
      (∀ c ∈ s.inputMessage, isJsWhitespace c = true) ∨
        s.callStatus = CallStatus.Processing) ∧
    (¬ ((∀ c ∈ s.inputMessage, isJsWhitespace c = true) ∨
        s.callStatus = CallStatus.Processing) →
      (submitUserMessage now s).messages.length = s.messages.length + 1 ∧
      (submitUserMessage now s).messages.take s.messages.length =
        s.messages) := by
  by_cases hb : jsTrim s.inputMessage = []
  · have hws : ∀ c ∈ s.inputMessage, isJsWhitespace c = true :=
      (jsTrim_eq_nil_iff s.inputMessage).mp hb
    have hdis : sendDisabled s = true := by
      simp [sendDisabled, hb]
    constructor
    · constructor
      · intro _
        exact Or.inl hws
      · intro _
        simp [submitUserMessage, hdis]
    · intro hcontra
      exact absurd (Or.inl hws) hcontra
  · have hws : ¬ ∀ c ∈ s.inputMessage, isJsWhitespace c = true := by
      intro h
      exact hb ((jsTrim_eq_nil_iff s.inputMessage).mpr h)
    by_cases hp : s.callStatus = CallStatus.Processing
    · have hdis : sendDisabled s = true := by
        simp [sendDisabled, hp]
      constructor
      · constructor
        · intro _
          exact Or.inr hp
        · intro _
          simp [submitUserMessage, hdis]
      · intro hcontra
        exact absurd (Or.inr hp) hcontra
    · have hdis : sendDisabled s = false := by
        simp [sendDisabled, hb, hp]
      have hsend : submitUserMessage now s = handleSendMessage now s := by
        simp [submitUserMessage, hdis]
      have hmsg : (handleSendMessage now s).messages =
          s.messages ++
            [{ id := manualMessageId now, speaker := Speaker.customer,
               message := String.mk (jsTrim s.inputMessage), timestamp := now,
               sentiment := some Sentiment.neutral, isNew := none,
               showWaveformFirst := none, messageVisible := some true,
               isAnimating := some false }] := by
        rw [handleSendMessage, if_pos hb]
      constructor
      · constructor
        · intro heq
          exfalso
          have hlen : (submitUserMessage now s).messages.length =
              s.messages.length := by
            rw [heq]
          rw [hsend, hmsg] at hlen
          simp at hlen
        · intro hor
          rcases hor with h | h
          · exact absurd h hws
          · exact absurd h hp
      · intro _
        rw [hsend, hmsg]
        constructor
        · simp
        · exact List.take_left s.messages _

theorem C3_submit_noop_iff_witness :
    submitUserMessage 0
        { callStatus := CallStatus.Connected, currentSpeaker := none,
          messages := [], currentMessageIndex := 0, isTyping := false,
          inputMessage := [' ', ' '] } =
      { callStatus := CallStatus.Connected, currentSpeaker := none,
        messages := [], currentMessageIndex := 0, isTyping := false,
        inputMessage := [' ', ' '] } :=
  (C3_submit_noop_iff 0 _).1.mpr (Or.inl (by decide))

/-- C4: an accepted manual submission appends exactly one message with
speaker customer, sentiment neutral, content immediately visible and
not animating (so the renderer shows the full text with neither the
waveform-first phase nor the typewriter pass), and it leaves the turn
index, the call status, the current speaker and every previously
stored message unchanged. -/
theorem C4_manual_message_effect (now : ℚ) (s : DriverState)
    (h : sendDisabled s = false) :
    ∃ m : Message,
      (submitUserMessage now s).messages = s.messages ++ [m] ∧
      m.speaker = Speaker.customer ∧
      m.sentiment = some Sentiment.neutral ∧
      m.messageVisible = some true ∧
      m.isAnimating = some false ∧
      m.showWaveformFirst = none ∧
      rendersFullText m = true ∧
      isWaveformActive m = false ∧
      (submitUserMessage now s).currentMessageIndex = s.currentMessageIndex ∧
      (submitUserMessage now s).callStatus = s.callStatus ∧
      (submitUserMessage now s).currentSpeaker = s.currentSpeaker := by
  have hb : jsTrim s.inputMessage ≠ [] := by
    intro hh
    simp [sendDisabled, hh] at h
  have hsend : submitUserMessage now s = handleSendMessage now s := by
    simp [submitUserMessage, h]
  refine ⟨{ id := manualMessageId now, speaker := Speaker.customer,
            message := String.mk (jsTrim s.inputMessage), timestamp := now,
            sentiment := some Sentiment.neutral, isNew := none,
            showWaveformFirst := none, messageVisible := some true,
            isAnimating := some false },
    ?_, rfl, rfl, rfl, rfl, rfl, rfl, rfl, ?_, ?_, ?_⟩ <;>
    rw [hsend, handleSendMessage, if_pos hb]

theorem C4_manual_message_effect_witness :
    ∃ m : Message,
      (submitUserMessage 0
          { callStatus := CallStatus.Connected, currentSpeaker := none,
            messages := [], currentMessageIndex := 0, isTyping := false,
            inputMessage := ['h', 'i'] }).messages = [] ++ [m] ∧
      m.speaker = Speaker.customer ∧
      m.sentiment = some Sentiment.neutral ∧
      m.messageVisible = some true ∧
      m.isAnimating = some false ∧
      m.showWaveformFirst = none ∧
      rendersFullText m = true ∧
      isWaveformActive m = false ∧
      (submitUserMessage 0
          { callStatus := CallStatus.Connected, currentSpeaker := none,
            messages := [], currentMessageIndex := 0, isTyping := false,
            inputMessage := ['h', 'i'] }).currentMessageIndex = 0 ∧
      (submitUserMessage 0
          { callStatus := CallStatus.Connected, currentSpeaker := none,
            messages := [], currentMessageIndex := 0, isTyping := false,
            inputMessage := ['h', 'i'] }).callStatus =
        CallStatus.Connected ∧
      (submitUserMessage 0
          { callStatus := CallStatus.Connected, currentSpeaker := none,
            messages := [], currentMessageIndex := 0, isTyping := false,
            inputMessage := ['h', 'i'] }).currentSpeaker = none :=
  C4_manual_message_effect 0 _ (by decide)

/-! ## Sentiment/Emotion Tracker (SentimentAnalysisPanel.tsx) -/

structure SentimentPoint where
  time : String
  sentiment : Nat
  emotions : List String
  currentSentiment : Sentiment
  confidence : Nat
  deriving DecidableEq, Repr

instance : Inhabited SentimentPoint :=
  ⟨⟨"", 0, [], Sentiment.neutral, 0⟩⟩

/-- The hard-coded sentimentProgression array (lines 10-22). -/
def sentimentProgression : List SentimentPoint :=
  [⟨"0:00", 70, ["Calm", "Polite"], Sentiment.neutral, 85⟩,
   ⟨"0:15", 30, ["Frustrated", "Urgent"], Sentiment.negative, 92⟩,
   ⟨"0:45", 40, ["Concerned", "Hopeful"], Sentiment.neutral, 78⟩,
   ⟨"1:15", 45, ["Cooperative", "Patient"], Sentiment.neutral, 82⟩,
   ⟨"1:45", 50, ["Understanding", "Attentive"], Sentiment.neutral, 88⟩,
   ⟨"2:30", 25, ["Angry", "Impatient"], Sentiment.negative, 95⟩,
   ⟨"3:15", 55, ["Cautious", "Skeptical"], Sentiment.neutral, 86⟩,
   ⟨"4:00", 45, ["Worried", "Questioning"], Sentiment.neutral, 83⟩,
   ⟨"4:45", 65, ["Relieved", "Optimistic"], Sentiment.neutral, 89⟩,
   ⟨"5:30", 75, ["Satisfied", "Grateful"], Sentiment.positive, 91⟩,
   ⟨"6:15", 85, ["Happy", "Appreciative"], Sentiment.positive, 94⟩]

structure Emotion where
  name : String
  active : Bool
  color : String
  deriving DecidableEq, Repr

/-- getEmotionColor (lines 89-106). -/
def getEmotionColor (emotion : String) : String :=
  if emotion = "Frustrated" ∨ emotion = "Angry" then "bg-red-500"
  else if emotion = "Concerned" ∨ emotion = "Cautious" ∨
      emotion = "Skeptical" then "bg-orange-500"
  else if emotion = "Happy" ∨ emotion = "Satisfied" ∨
      emotion = "Grateful" ∨ emotion = "Appreciative" then "bg-green-500"
  else if emotion = "Urgent" ∨ emotion = "Impatient" then "bg-yellow-500"
  else if emotion = "Relieved" ∨ emotion = "Hopeful" then "bg-emerald-500"
  else "bg-blue-500"

/-- `const defaultEmotions = ['Attentive', 'Focused', 'Engaged',
'Responsive']` (line 64). -/
def defaultEmotions : List String :=
  ["Attentive", "Focused", "Engaged", "Responsive"]

/-- The emotion-list rebuild of one tick (lines 47-74): the authored
tags of the snapshot first (skipping empty strings and duplicates),
then default fillers while fewer than 4 entries, skipping names already
present.  The JS Set holds exactly the names pushed so far, so
membership in the accumulated names replaces it. -/
def rebuildEmotions (p : SentimentPoint) : List Emotion :=
  let authored := p.emotions.foldl
    (fun acc e =>
      if e ≠ "" ∧ e ∉ acc.map Emotion.name then
        acc ++ [⟨e, true, getEmotionColor e⟩]
      else acc) []
  defaultEmotions.foldl
    (fun acc e =>
      if acc.length < 4 ∧ e ∉ acc.map Emotion.name then
        acc ++ [⟨e, decide (p.currentSentiment = Sentiment.positive),
                 "bg-blue-500"⟩]
      else acc) authored

structure PanelState where
  currentSentiment : Sentiment
  confidenceScore : Nat
  sentimentHistory : List SentimentPoint
  currentProgressionIndex : Nat
  emotions : List Emotion
  deriving DecidableEq, Repr

/-- The initial useState values (lines 25-34). -/
def panelInit : PanelState :=
  { currentSentiment := Sentiment.neutral, confidenceScore := 85,
    sentimentHistory := sentimentProgression.take 1,
    currentProgressionIndex := 0,
    emotions := [⟨"Neutral", true, "bg-blue-500"⟩,
                 ⟨"Polite", true, "bg-green-500"⟩,
                 ⟨"Cooperative", false, "bg-green-500"⟩,
                 ⟨"Urgent", false, "bg-yellow-500"⟩] }

/-- `newHistory.slice(-8)` (line 81): keep the last 8 entries. -/
def sliceLast8 (l : List SentimentPoint) : List SentimentPoint :=
  l.drop (l.length - 8)

/-- One 4000 ms tick of the interval (lines 37-87): advance the cursor
and adopt the next snapshot, unless the cursor already points at the
last snapshot, in which case nothing at all changes. -/
def panelTick (s : PanelState) : PanelState :=
  if s.currentProgressionIndex < sentimentProgression.length - 1 then
    { currentProgressionIndex := s.currentProgressionIndex + 1,
      currentSentiment :=
        (sentimentProgression.getD (s.currentProgressionIndex + 1)
          default).currentSentiment,
      confidenceScore :=
        (sentimentProgression.getD (s.currentProgressionIndex + 1)
          default).confidence,
      emotions := rebuildEmotions
        (sentimentProgression.getD (s.currentProgressionIndex + 1) default),
      sentimentHistory := sliceLast8 (s.sentimentHistory ++
        [sentimentProgression.getD (s.currentProgressionIndex + 1) default]) }
  else s

/-- Panel state after `n` ticks from mount. -/
def panelTickN : Nat → PanelState
  | 0 => panelInit
  | n + 1 => panelTick (panelTickN n)

theorem panelTickN_index :
    ∀ n, (panelTickN n).currentProgressionIndex =
      min n (sentimentProgression.length - 1) := by
  have hlen : sentimentProgression.length = 11 := rfl
  intro n
  induction n with
  | zero => rfl
  | succ n ih =>
    show (panelTick (panelTickN n)).currentProgressionIndex = _
    by_cases h : (panelTickN n).currentProgressionIndex <
        sentimentProgression.length - 1
    · rw [panelTick, if_pos h]
      rw [ih] at h ⊢
      simp only [hlen] at h ⊢
      omega
    · rw [panelTick, if_neg h, ih]
      rw [ih] at h
      simp only [hlen] at h ⊢
      omega

theorem panelTickN_stable :
    ∀ n, sentimentProgression.length - 1 ≤ n →
      panelTickN n = panelTickN (sentimentProgression.length - 1) := by
  intro n
  induction n with
  | zero =>
    intro h
    rw [Nat.le_zero.mp h]
  | succ n ih =>
    intro h
    rcases Nat.lt_or_ge (sentimentProgression.length - 1) (n + 1) with hlt | hge
    · have hn : sentimentProgression.length - 1 ≤ n := Nat.lt_succ_iff.mp hlt
      show panelTick (panelTickN n) = _
      rw [ih hn, panelTick, if_neg]
      rw [panelTickN_index]
      omega
    · have heq : sentimentProgression.length - 1 = n + 1 :=
        Nat.le_antisymm h hge
      rw [heq]

/-- C8: the sentiment cursor advances by exactly one on each tick while
it has not reached the last snapshot, is monotonically non-decreasing
and bounded by the script length, and never resets (the iterated-tick
cursor is min n (length - 1)); once the cursor points at the last
snapshot every subsequent tick is a complete no-op, so the current
sentiment, confidence, emotion list and trailing history stop
changing. -/
theorem C8_sentiment_cursor (s : PanelState) :
    (s.currentProgressionIndex < sentimentProgression.length - 1 →
      (panelTick s).currentProgressionIndex =
        s.currentProgressionIndex + 1) ∧
    s.currentProgressionIndex ≤ (panelTick s).currentProgressionIndex ∧
    (s.currentProgressionIndex < sentimentProgression.length →
      (panelTick s).currentProgressionIndex < sentimentProgression.length) ∧
    (sentimentProgression.length - 1 ≤ s.currentProgressionIndex →
      panelTick s = s) ∧
    (∀ n, (panelTickN n).currentProgressionIndex =
      min n (sentimentProgression.length - 1)) ∧
    (∀ n, sentimentProgression.length - 1 ≤ n →
      panelTickN n = panelTickN (sentimentProgression.length - 1)) := by
  have hlen : sentimentProgression.length = 11 := rfl
  refine ⟨?_, ?_, ?_, ?_, panelTickN_index, panelTickN_stable⟩
  · intro h
    rw [panelTick, if_pos h]
  · by_cases h : s.currentProgressionIndex < sentimentProgression.length - 1
    · rw [panelTick, if_pos h]
      exact Nat.le_succ _
    · rw [panelTick, if_neg h]
  · intro hidx
    by_cases h : s.currentProgressionIndex < sentimentProgression.length - 1
    · rw [panelTick, if_pos h]
      simp only [hlen] at h ⊢
      omega
    · rw [panelTick, if_neg h]
      exact hidx
  · intro h
    rw [panelTick, if_neg (by omega)]

theorem C8_sentiment_cursor_witness :
    (panelTick panelInit).currentProgressionIndex =
      panelInit.currentProgressionIndex + 1 :=
  (C8_sentiment_cursor panelInit).1 (by decide)

/-- Modelled from the wording of claim C9: the snapshot's authored tags
first, then filler tags taken in order from the default pool that do
not duplicate names already present, stopping once 4 entries are
reached. -/
def claimEmotionNames (p : SentimentPoint) : List String :=
  p.emotions ++
    (defaultEmotions.filter (fun e => e ∉ p.emotions)).take
      (4 - p.emotions.length)

/-- C9: after every tick that advances the cursor, the active emotion
list is the rebuild of the new snapshot, and for every snapshot of the
fixed script that rebuild is duplicate-free, has at most 4 entries, and
lists the authored tags first followed by non-duplicating fillers from
the default pool up to capacity. -/
theorem C9_emotion_tags (s : PanelState)
    (h : s.currentProgressionIndex < sentimentProgression.length - 1) :
    (panelTick s).emotions =
      rebuildEmotions
        (sentimentProgression.getD (s.currentProgressionIndex + 1) default) ∧
    ∀ p ∈ sentimentProgression,
      ((rebuildEmotions p).map Emotion.name).Nodup ∧
      (rebuildEmotions p).length ≤ 4 ∧
      (rebuildEmotions p).map Emotion.name = claimEmotionNames p := by
  constructor
  · rw [panelTick, if_pos h]
  · decide

theorem C9_emotion_tags_witness :
    (panelTick panelInit).emotions =
      rebuildEmotions (sentimentProgression.getD 1 default) :=
  (C9_emotion_tags panelInit (by decide)).1

theorem C10_empty_text_completes_immediately_witness :
    twRun [] = [TWEvent.complete] :=
  (C10_empty_text_completes_immediately 0 0 0).2.2.1
